import Mathlib

/-!
# Verification of `id_gen.py` (student ID bulk generator)

A shallow embedding of the core per-record pipeline of `src/id_gen.py`:
CSV rows are turned into two-sided ID cards by substituting placeholder
tokens in SVG template markup, rasterizing front/back to one-page PDFs,
and merging them into one output document per record.

Python strings are modelled as `List Char`, the filesystem as association
lists from paths to contents, and the external libraries (`barcode`,
`cairosvg`) as fixed pure functions carried in the configuration.
-/

/-- Python strings are modelled as lists of characters. -/
abbrev Str := List Char

/-! ## Python `str.replace`

`s.replace(pat, repl)` scans `s` left to right and replaces each
non-overlapping occurrence of `pat` by `repl`.  All patterns used by
`id_gen.py` are non-empty, so the embedding only models the non-empty
pattern case.  The scanner is written structurally with a skip counter:
after a match it emits `repl`, consumes the matched head character, and
skips the remaining `pat.length - 1` matched characters. -/

/-- Scanner for `pyReplace`: in state `k + 1` the next character belongs to
an already-matched occurrence and is skipped; in state `0` the scanner
tries to match `pat` at the current position. -/
def pyReplaceAux (pat repl : Str) : Str → Nat → Str
  | [], _ => []
  | _ :: rest, k + 1 => pyReplaceAux pat repl rest k
  | c :: rest, 0 =>
    if pat ≠ [] ∧ pat <+: (c :: rest) then
      repl ++ pyReplaceAux pat repl rest (pat.length - 1)
    else
      c :: pyReplaceAux pat repl rest 0

/-- Embedding of Python `s.replace(pat, repl)` for non-empty `pat`:
greedy left-to-right replacement of non-overlapping occurrences. -/
def pyReplace (pat repl s : Str) : Str :=
  pyReplaceAux pat repl s 0

/-- Scanner for `pySplit`, with the same skip-counter discipline as
`pyReplaceAux`. -/
def pySplitAux (pat : Str) : Str → Nat → List Str
  | [], _ => [[]]
  | _ :: rest, k + 1 => pySplitAux pat rest k
  | c :: rest, 0 =>
    if pat ≠ [] ∧ pat <+: (c :: rest) then
      [] :: pySplitAux pat rest (pat.length - 1)
    else
      match pySplitAux pat rest 0 with
      | [] => [[c]]
      | h :: t => (c :: h) :: t

/-- The greedy split underlying `pyReplace`: the segments of the scanned
string that lie between (greedy, non-overlapping) occurrences of `pat`;
Python's `s.split(pat)`.  `pyReplace pat repl s` is exactly these
segments joined by `repl`. -/
def pySplit (pat s : Str) : List Str :=
  pySplitAux pat s 0

/-- Python `sep.join(pieces)`. -/
def joinWith (sep : Str) : List Str → Str
  | [] => []
  | [x] => x
  | x :: y :: t => x ++ sep ++ joinWith sep (y :: t)

example : pyReplace "ab".toList "X".toList "zabab".toList = "zXX".toList := by decide
example : pyReplace "aa".toList "b".toList "aaa".toList = "ba".toList := by decide
example : pySplit "ab".toList "zaby".toList = ["z".toList, "y".toList] := by decide
example : pySplit "ab".toList "ab".toList = [[], []] := by decide

/-! ## Placeholder tokens (`id_gen.py` lines 196-211)

The recognized template placeholders.  Each is a non-empty literal. -/

def namePat : Str := "<!-- NAME -->".toList

def yearPat : Str := "<!-- YEAR -->".toList

def idPat : Str := "<!-- ID -->".toList

def photoPat : Str := "<!-- PHOTO -->".toList

def barcodePat : Str := "<!-- BARCODE -->".toList

/-! ## `base64.b64encode` (used at lines 164 and 179)

Standard base64 over a byte list; the Python `str(...)[2:-1]` dance
around it only strips the textual `b'...'` wrapper, so its net effect is
exactly the base64 text. -/

/-- The base64 alphabet. -/
def b64Char (n : Nat) : Char :=
  "ABCDEFGHIJKLMNOPQRSTUVWXYZabcdefghijklmnopqrstuvwxyz0123456789+/".toList.getD n 'A'

/-- `base64.b64encode` on a byte list, as text. -/
def b64encode : List Nat → Str
  | a :: b :: c :: rest =>
    b64Char (a / 4) :: b64Char (a % 4 * 16 + b / 16) ::
      b64Char (b % 16 * 4 + c / 64) :: b64Char (c % 64) :: b64encode rest
  | [a, b] => [b64Char (a / 4), b64Char (a % 4 * 16 + b / 16), b64Char (b % 16 * 4), '=']
  | [a] => [b64Char (a / 4), b64Char (a % 4 * 16), '=', '=']
  | [] => []

example : b64encode [77, 97, 110] = "TWFu".toList := by decide
example : b64encode [77, 97] = "TWE=".toList := by decide

/-! ## Data model of one run -/

/-- One page of a rasterized PDF.  `cairosvg.svg2pdf` (lines 227-238)
renders one SVG string to a single page at the fixed parent size
323 x 204. -/
structure Page where
  markup : Str
  width : Nat
  height : Nat
  deriving DecidableEq

/-- Python exceptions the processing loop can raise: `IndexError` from
`row[4]` on a short row, `FileNotFoundError` from `open` on a missing
file.  Any of them aborts the whole run. -/
inductive PyErr where
  | indexError : PyErr
  | fileNotFound (path : Str) : PyErr
  deriving DecidableEq

/-- The fixed configuration of a run: the two template strings (loaded
once, lines 112-118), the images and output directories, the photo files
on disk, and the two external rendering functions.  `barcodeSvg` models
`barcode.get_barcode_class('code128')(id).render(writer_options={...})`
with its fixed writer options, and `svg2png` models
`cairosvg.svg2png(bytestring=..., scale=10)`; both are pure functions of
their input, fixed for the whole run. -/
structure Ctx where
  template_front : Str
  template_back : Str
  imagesPath : Str
  outputPath : Str
  photos : List (Str × List Nat)
  barcodeSvg : Str → List Nat
  svg2png : List Nat → List Nat

/-- Mutable state of a run: the files written under the output root
(newest first; `List.lookup` sees the newest version of a path) and the
skip messages printed so far. -/
structure RunState where
  out : List (Str × List Page)
  skips : List Str
  deriving DecidableEq

/-- `os.path.join` for the paths this tool builds (no absolute second
component ever occurs). -/
def pathJoin (a b : Str) : Str := a ++ '/' :: b

/-- Photo path `images_path/<year>/<photo>.jpg` (line 155). -/
def photoPath (ctx : Ctx) (year photo : Str) : Str :=
  pathJoin ctx.imagesPath (pathJoin year (photo ++ ".jpg".toList))

/-- Intermediate path `output_path/tmp/<id>-front.pdf` (lines 229, 245). -/
def tmpFrontPath (ctx : Ctx) (idNum : Str) : Str :=
  pathJoin ctx.outputPath (pathJoin "tmp".toList (idNum ++ "-front.pdf".toList))

/-- Intermediate path `output_path/tmp/<id>-back.pdf` (lines 235, 247). -/
def tmpBackPath (ctx : Ctx) (idNum : Str) : Str :=
  pathJoin ctx.outputPath (pathJoin "tmp".toList (idNum ++ "-back.pdf".toList))

/-- Final output path `output_path/<id>.pdf` (line 253). -/
def outPath (ctx : Ctx) (idNum : Str) : Str :=
  pathJoin ctx.outputPath (idNum ++ ".pdf".toList)

/-- The literal header row recognized at line 143. -/
def expectedHeader : List Str :=
  ["First".toList, "Last".toList, "Year".toList, "ID Number".toList, "Photo Number".toList]

/-- The skip message printed at lines 149-150. -/
def skipMsg (firstName lastName : Str) : Str :=
  "Student ".toList ++ firstName ++
    (' ' :: (lastName ++ " does not have a photo. Skipping...".toList))

/-! ## The per-record pipeline -/

/-- Front-side rendering (lines 203-206): the chain of `.replace` calls,
`NAME` first, then `YEAR`, then `ID`, then `PHOTO`. -/
def idFront (template firstName lastName year idNum photo : Str) : Str :=
  pyReplace photoPat photo
    (pyReplace idPat idNum
      (pyReplace yearPat year
        (pyReplace namePat (firstName ++ ' ' :: lastName) template)))

/-- Back-side rendering (lines 210-211): one `.replace` of `BARCODE`. -/
def idBack (template bc : Str) : Str := pyReplace barcodePat bc template

/-- Barcode payload (lines 179-190): render Code128 SVG for the
identifier, rasterize it to PNG, base64-encode the bytes. -/
def id_barcode (ctx : Ctx) (idNum : Str) : Str :=
  b64encode (ctx.svg2png (ctx.barcodeSvg idNum))

/-- `cairosvg.svg2pdf(..., parent_width=323, parent_height=204)`
produces a single fixed-size page from the markup (lines 227-238). -/
def rasterize (markup : Str) : List Page := [⟨markup, 323, 204⟩]

/-- `PdfFileMerger`: all front pages, then all back pages (lines 243-251). -/
def mergeDocs (frontDoc backDoc : List Page) : List Page := frontDoc ++ backDoc

/-- Writing a file: the new content at `path` shadows any older one. -/
def setFile (fs : List (Str × List Page)) (path : Str) (content : List Page) :
    List (Str × List Page) :=
  (path, content) :: fs

/-- Steps (1)-(6) for one record with a non-empty photo cell
(lines 153-255): read the photo (raising `FileNotFoundError` if absent),
base64 it, build the barcode, fill both templates, rasterize both sides
to the two tmp files, then merge by reading the two tmp files back and
write the final document. -/
def processRecord (ctx : Ctx) (firstName lastName year idNum photo : Str)
    (st : RunState) : Except PyErr RunState :=
  match List.lookup (photoPath ctx year photo) ctx.photos with
  | none => .error (.fileNotFound (photoPath ctx year photo))
  | some bytes =>
    let front := idFront ctx.template_front firstName lastName year idNum (b64encode bytes)
    let back := idBack ctx.template_back (id_barcode ctx idNum)
    let out2 := setFile (setFile st.out (tmpFrontPath ctx idNum) (rasterize front))
        (tmpBackPath ctx idNum) (rasterize back)
    match List.lookup (tmpFrontPath ctx idNum) out2 with
    | none => .error (.fileNotFound (tmpFrontPath ctx idNum))
    | some frontDoc =>
      match List.lookup (tmpBackPath ctx idNum) out2 with
      | none => .error (.fileNotFound (tmpBackPath ctx idNum))
      | some backDoc =>
        .ok { st with out := setFile out2 (outPath ctx idNum) (mergeDocs frontDoc backDoc) }

/-- One iteration of the `for row in data` loop (lines 130-255): skip the
literal header row; on a row with at least five cells, skip (with a
message) if the photo cell is empty, otherwise process; on a shorter row
`row[4]` raises `IndexError`. -/
def stepRow (ctx : Ctx) (row : List Str) (st : RunState) : Except PyErr RunState :=
  if row = expectedHeader then .ok st
  else
    match row with
    | firstName :: lastName :: year :: idNum :: photo :: _ =>
      if photo = [] then .ok { st with skips := st.skips ++ [skipMsg firstName lastName] }
      else processRecord ctx firstName lastName year idNum photo st
    | _ => .error .indexError

/-- The whole loop: rows are processed in order; the first exception
aborts the run, carrying the state as it was when the failing record
started (nothing later is processed or written). -/
def runRows (ctx : Ctx) : List (List Str) → RunState → Except (PyErr × RunState) RunState
  | [], st => .ok st
  | row :: rows, st =>
    match stepRow ctx row st with
    | .error e => .error (e, st)
    | .ok st' => runRows ctx rows st'

/-! ## Derived forms and sample data -/

/-- The rendered front markup of a record whose photo file holds `bytes`. -/
def frontMarkup (ctx : Ctx) (firstName lastName year idNum : Str) (bytes : List Nat) : Str :=
  idFront ctx.template_front firstName lastName year idNum (b64encode bytes)

/-- The rendered back markup of a record. -/
def backMarkup (ctx : Ctx) (idNum : Str) : Str :=
  idBack ctx.template_back (id_barcode ctx idNum)

/-- The merged output document produced for a record. -/
def recordDoc (ctx : Ctx) (firstName lastName year idNum : Str) (bytes : List Nat) :
    List Page :=
  mergeDocs (rasterize (frontMarkup ctx firstName lastName year idNum bytes))
    (rasterize (backMarkup ctx idNum))

/-- A small concrete configuration used to instantiate the theorems:
both templates contain their tokens once, and one photo file exists at
`images/2099/p1.jpg`. -/
def sampleCtx : Ctx :=
  { template_front :=
      "<f><!-- NAME --> <!-- YEAR --> <!-- ID --> <!-- PHOTO --></f>".toList
    template_back := "<b><!-- BARCODE --></b>".toList
    imagesPath := "images".toList
    outputPath := "out".toList
    photos := [("images/2099/p1.jpg".toList, [1, 2, 3])]
    barcodeSvg := fun idNum => idNum.map Char.toNat
    svg2png := fun bytes => bytes }

/-- The empty starting state of a run. -/
def initSt : RunState := { out := [], skips := [] }

/-- The run state after one record is successfully processed: the front
tmp file, the back tmp file, and the merged document are written, in
source order. -/
def processedState (ctx : Ctx) (firstName lastName year idNum : Str) (bytes : List Nat)
    (st : RunState) : RunState :=
  { st with
    out :=
      setFile
        (setFile
          (setFile st.out (tmpFrontPath ctx idNum)
            (rasterize (frontMarkup ctx firstName lastName year idNum bytes)))
          (tmpBackPath ctx idNum) (rasterize (backMarkup ctx idNum)))
        (outPath ctx idNum) (recordDoc ctx firstName lastName year idNum bytes) }

/-- Applying a list of `(token, value)` substitutions to markup in the
given order, each by Python `str.replace`. -/
def substList (subs : List (Str × Str)) (s : Str) : Str :=
  subs.foldl (fun acc pv => pyReplace pv.1 pv.2 acc) s

/-! ### Unfolding lemmas for the scanners -/

theorem pyReplaceAux_cons_match (pat repl : Str) (c : Char) (rest : Str)
    (h1 : pat ≠ []) (h2 : pat <+: (c :: rest)) :
    pyReplaceAux pat repl (c :: rest) 0 =
      repl ++ pyReplaceAux pat repl rest (pat.length - 1) := by
  simp only [pyReplaceAux]
  rw [if_pos ⟨h1, h2⟩]

theorem pyReplaceAux_cons_nomatch (pat repl : Str) (c : Char) (rest : Str)
    (h : ¬(pat ≠ [] ∧ pat <+: (c :: rest))) :
    pyReplaceAux pat repl (c :: rest) 0 = c :: pyReplaceAux pat repl rest 0 := by
  simp only [pyReplaceAux]
  rw [if_neg h]

theorem pyReplaceAux_eq_drop (pat repl : Str) :
    ∀ (s : Str) (k : Nat), pyReplaceAux pat repl s k = pyReplaceAux pat repl (s.drop k) 0 := by
  intro s
  induction s with
  | nil => intro k; simp [pyReplaceAux]
  | cons c rest ih =>
    intro k
    cases k with
    | zero => rfl
    | succ k => exact ih k

theorem pySplitAux_cons_match (pat : Str) (c : Char) (rest : Str)
    (h1 : pat ≠ []) (h2 : pat <+: (c :: rest)) :
    pySplitAux pat (c :: rest) 0 = [] :: pySplitAux pat rest (pat.length - 1) := by
  simp only [pySplitAux]
  rw [if_pos ⟨h1, h2⟩]

theorem pySplitAux_cons_nomatch (pat : Str) (c : Char) (rest : Str)
    (h : ¬(pat ≠ [] ∧ pat <+: (c :: rest))) (x : Str) (t : List Str)
    (hs : pySplitAux pat rest 0 = x :: t) :
    pySplitAux pat (c :: rest) 0 = (c :: x) :: t := by
  simp only [pySplitAux]
  rw [if_neg h, hs]

theorem pySplitAux_ne_nil (pat : Str) : ∀ (s : Str) (k : Nat), pySplitAux pat s k ≠ [] := by
  intro s
  induction s with
  | nil => intro k; simp [pySplitAux]
  | cons c rest ih =>
    intro k
    cases k with
    | succ k => exact ih k
    | zero =>
      by_cases h : pat ≠ [] ∧ pat <+: (c :: rest)
      · rw [pySplitAux_cons_match pat c rest h.1 h.2]
        simp
      · rcases hs : pySplitAux pat rest 0 with _ | ⟨x, t⟩
        · exact absurd hs (ih 0)
        · rw [pySplitAux_cons_nomatch pat c rest h x t hs]
          simp

/-! ### `joinWith` helper lemmas -/

theorem joinWith_cons_cons (sep : Str) (c : Char) (x : Str) (t : List Str) :
    joinWith sep ((c :: x) :: t) = c :: joinWith sep (x :: t) := by
  cases t with
  | nil => rfl
  | cons y t => simp [joinWith]

theorem joinWith_nil_cons (sep : Str) (x : Str) (t : List Str) :
    joinWith sep ([] :: x :: t) = sep ++ joinWith sep (x :: t) := by
  simp [joinWith]

/-! ### Characterization of `pyReplace` via `pySplit`

`pyReplace pat repl s` is exactly the pattern-free segments of `s` joined
by `repl`; joining the segments by `pat` itself reconstructs `s`; and no
segment contains an occurrence of `pat`.  Together these say: every
occurrence of the pattern is replaced, and the text between occurrences
is carried over unchanged. -/

theorem pyReplaceAux_eq_joinWith (pat repl : Str) :
    ∀ (s : Str) (k : Nat),
      pyReplaceAux pat repl s k = joinWith repl (pySplitAux pat s k) := by
  intro s
  induction s with
  | nil => intro k; simp [pyReplaceAux, pySplitAux, joinWith]
  | cons c rest ih =>
    intro k
    cases k with
    | succ k => exact ih k
    | zero =>
      by_cases h : pat ≠ [] ∧ pat <+: (c :: rest)
      · rw [pyReplaceAux_cons_match pat repl c rest h.1 h.2,
          pySplitAux_cons_match pat c rest h.1 h.2]
        rcases hs : pySplitAux pat rest (pat.length - 1) with _ | ⟨x, t⟩
        · exact absurd hs (pySplitAux_ne_nil pat rest _)
        · rw [joinWith_nil_cons, ← hs, ← ih (pat.length - 1)]
      · rcases hs : pySplitAux pat rest 0 with _ | ⟨x, t⟩
        · exact absurd hs (pySplitAux_ne_nil pat rest 0)
        · rw [pyReplaceAux_cons_nomatch pat repl c rest h,
            pySplitAux_cons_nomatch pat c rest h x t hs,
            joinWith_cons_cons, ← hs, ← ih 0]

theorem pyReplace_eq_joinWith (pat repl s : Str) :
    pyReplace pat repl s = joinWith repl (pySplit pat s) :=
  pyReplaceAux_eq_joinWith pat repl s 0

theorem joinWith_pySplitAux (pat : Str) (hp : pat ≠ []) :
    ∀ (s : Str) (k : Nat), joinWith pat (pySplitAux pat s k) = s.drop k := by
  intro s
  induction s with
  | nil => intro k; simp [pySplitAux, joinWith]
  | cons c rest ih =>
    intro k
    cases k with
    | succ k => exact ih k
    | zero =>
      by_cases h : pat ≠ [] ∧ pat <+: (c :: rest)
      · rw [pySplitAux_cons_match pat c rest h.1 h.2]
        rcases hs : pySplitAux pat rest (pat.length - 1) with _ | ⟨x, t⟩
        · exact absurd hs (pySplitAux_ne_nil pat rest _)
        · rw [joinWith_nil_cons, ← hs, ih (pat.length - 1)]
          obtain ⟨u, hu⟩ := h.2
          cases pat with
          | nil => exact absurd rfl hp
          | cons p0 pr =>
            rw [List.cons_append] at hu
            have h0 : p0 = c := (List.cons.injEq _ _ _ _ ▸ hu).1
            have h1 : pr ++ u = rest := (List.cons.injEq _ _ _ _ ▸ hu).2
            subst h0
            rw [← h1]
            simp [List.drop_left]
      · rcases hs : pySplitAux pat rest 0 with _ | ⟨x, t⟩
        · exact absurd hs (pySplitAux_ne_nil pat rest 0)
        · rw [pySplitAux_cons_nomatch pat c rest h x t hs, joinWith_cons_cons, ← hs, ih 0]
          simp

theorem joinWith_pySplit (pat s : Str) (hp : pat ≠ []) :
    joinWith pat (pySplit pat s) = s := by
  simpa using joinWith_pySplitAux pat hp s 0

theorem pySplitAux_head_le (pat : Str) :
    ∀ (s : Str) (k : Nat) (x : Str) (t : List Str),
      pySplitAux pat s k = x :: t → x <+: s.drop k := by
  intro s
  induction s with
  | nil =>
    intro k x t h
    simp only [pySplitAux] at h
    injection h with h1 h2
    rw [← h1]
    exact List.nil_prefix
  | cons c rest ih =>
    intro k x t h
    cases k with
    | succ k => exact ih k x t h
    | zero =>
      by_cases hm : pat ≠ [] ∧ pat <+: (c :: rest)
      · rw [pySplitAux_cons_match pat c rest hm.1 hm.2] at h
        injection h with h1 h2
        rw [← h1]
        exact List.nil_prefix
      · rcases hs : pySplitAux pat rest 0 with _ | ⟨y, t'⟩
        · exact absurd hs (pySplitAux_ne_nil pat rest 0)
        · rw [pySplitAux_cons_nomatch pat c rest hm y t' hs] at h
          injection h with h1 h2
          rw [← h1]
          have hy := ih 0 y t' hs
          simp only [List.drop_zero] at hy ⊢
          exact List.cons_prefix_cons.mpr ⟨rfl, hy⟩

theorem pySplitAux_pieces_clean (pat : Str) (hp : pat ≠ []) :
    ∀ (s : Str) (k : Nat), ∀ piece ∈ pySplitAux pat s k, ¬ pat <:+: piece := by
  intro s
  induction s with
  | nil =>
    intro k piece hmem
    simp only [pySplitAux, List.mem_singleton] at hmem
    subst hmem
    intro hinf
    exact hp ( List.eq_nil_of_infix_nil hinf)
  | cons c rest ih =>
    intro k piece hmem
    cases k with
    | succ k => exact ih k piece hmem
    | zero =>
      by_cases hm : pat ≠ [] ∧ pat <+: (c :: rest)
      · rw [pySplitAux_cons_match pat c rest hm.1 hm.2] at hmem
        rcases List.mem_cons.mp hmem with h | h
        · subst h
          intro hinf
          exact hp ( List.eq_nil_of_infix_nil hinf)
        · exact ih _ piece h
      · rcases hs : pySplitAux pat rest 0 with _ | ⟨y, t'⟩
        · exact absurd hs (pySplitAux_ne_nil pat rest 0)
        · rw [pySplitAux_cons_nomatch pat c rest hm y t' hs] at hmem
          rcases List.mem_cons.mp hmem with h | h
          · subst h
            intro hinf
            rcases List.infix_cons_iff.mp hinf with hpre | hinf'
            · have hy : y <+: rest := by
                have := pySplitAux_head_le pat rest 0 y t' hs
                simpa using this
              have : pat <+: c :: rest :=
                hpre.trans ( List.cons_prefix_cons.mpr ⟨rfl, hy⟩)
              exact hm ⟨hp, this⟩
            · exact (ih 0 y (by rw [hs]; exact List.mem_cons_self _ _)) hinf'
          · exact ih 0 piece (by rw [hs]; exact List.mem_cons_of_mem _ h)

theorem pySplit_pieces_clean (pat s : Str) (hp : pat ≠ []) :
    ∀ piece ∈ pySplit pat s, ¬ pat <:+: piece :=
  pySplitAux_pieces_clean pat hp s 0

/-- A token absent from the scanned string is a silent no-op: `pyReplace`
returns the string unchanged. -/
theorem pyReplace_noop_of_absent (pat repl : Str) :
    ∀ (s : Str), ¬ pat <:+: s → pyReplace pat repl s = s := by
  intro s
  induction s with
  | nil => intro _; rfl
  | cons c rest ih =>
    intro h
    have hnp : ¬ (pat ≠ [] ∧ pat <+: (c :: rest)) := fun hc => h hc.2.isInfix
    have hni : ¬ pat <:+: rest := fun hinf => h ( List.infix_cons hinf)
    show pyReplaceAux pat repl (c :: rest) 0 = c :: rest
    rw [pyReplaceAux_cons_nomatch pat repl c rest hnp]
    exact congrArg (c :: ·) (ih hni)

/-- `pyReplace` inserts the replacement value verbatim (no escaping): at
the first occurrence of the pattern the output is the unchanged head,
then the raw replacement value — whatever characters it contains — then
the result of scanning the tail. -/
theorem pyReplace_first_occ (pat repl : Str) (hp : pat ≠ []) :
    ∀ (u v : Str), ¬ pat <:+: (u ++ pat).dropLast →
      pyReplace pat repl (u ++ pat ++ v) = u ++ repl ++ pyReplace pat repl v := by
  intro u
  induction u with
  | nil =>
    intro v _
    simp only [List.nil_append]
    cases pat with
    | nil => exact absurd rfl hp
    | cons p0 pr =>
      show pyReplaceAux (p0 :: pr) repl ((p0 :: pr) ++ v) 0 = repl ++ pyReplace (p0 :: pr) repl v
      rw [List.cons_append,
        pyReplaceAux_cons_match (p0 :: pr) repl p0 (pr ++ v) hp
          (by rw [← List.cons_append]; exact List.prefix_append _ _),
        pyReplaceAux_eq_drop]
      simp only [List.length_cons, Nat.add_sub_cancel, List.drop_left]
      rfl
  | cons a u' ih =>
    intro v h
    have hne : u' ++ pat ≠ [] := by
      cases pat with
      | nil => exact absurd rfl hp
      | cons p0 pr => simp
    have hdl : ((a :: u') ++ pat).dropLast = a :: (u' ++ pat).dropLast := by
      rcases hu : u' ++ pat with _ | ⟨w, ws⟩
      · exact absurd hu hne
      · rw [List.cons_append, hu]
        rfl
    have hB : ¬ pat <:+: (u' ++ pat).dropLast := by
      intro hinf
      apply h
      rw [hdl]
      exact List.infix_cons hinf
    have hA : ¬ pat <+: a :: (u' ++ (pat ++ v)) := by
      intro hpre
      have hassoc : a :: (u' ++ (pat ++ v)) = ((a :: u') ++ pat) ++ v := by
        simp [List.append_assoc]
      rw [hassoc] at hpre
      have h1 : pat = (((a :: u') ++ pat) ++ v).take pat.length :=
        List.prefix_iff_eq_take.mp hpre
      have h2 : (((a :: u') ++ pat) ++ v).take pat.length = ((a :: u') ++ pat).take pat.length :=
        List.take_append_of_le_length (by simp; omega)
      have h3 : (((a :: u') ++ pat).dropLast).take pat.length =
          ((a :: u') ++ pat).take pat.length := by
        rw [List.dropLast_eq_take, List.take_take]
        congr 1
        simp only [List.length_append, List.length_cons]
        omega
      have h4 : pat <+: ((a :: u') ++ pat).dropLast := by
        rw [ List.prefix_iff_eq_take, h3, ← h2, ← h1]
      exact h h4.isInfix
    show pyReplaceAux pat repl ((a :: u') ++ pat ++ v) 0 =
      (a :: u') ++ repl ++ pyReplace pat repl v
    have hshape : (a :: u') ++ pat ++ v = a :: (u' ++ (pat ++ v)) := by
      simp [List.append_assoc]
    rw [hshape, pyReplaceAux_cons_nomatch pat repl a (u' ++ (pat ++ v)) (fun hc => hA hc.2)]
    have := ih v hB
    show a :: pyReplaceAux pat repl (u' ++ (pat ++ v)) 0 = (a :: u') ++ repl ++ pyReplace pat repl v
    have hgoal : pyReplaceAux pat repl (u' ++ (pat ++ v)) 0 = u' ++ repl ++ pyReplace pat repl v := by
      rw [← List.append_assoc]
      exact this
    rw [hgoal]
    simp [List.append_assoc]

/-! ## Helper lemmas about the pipeline -/

theorem tmpFrontPath_ne_tmpBackPath (ctx : Ctx) (idNum : Str) :
    tmpFrontPath ctx idNum ≠ tmpBackPath ctx idNum := by
  intro h
  simp only [tmpFrontPath, tmpBackPath, pathJoin] at h
  have h1 := List.append_cancel_left h
  injection h1 with _ h2
  have h3 := List.append_cancel_left h2
  injection h3 with _ h4
  have h5 := List.append_cancel_left h4
  exact absurd h5 (by decide)

theorem row_ne_header_of_photo (firstName lastName year idNum photo : Str)
    (rest : List Str) (h : photo ≠ "Photo Number".toList) :
    firstName :: lastName :: year :: idNum :: photo :: rest ≠ expectedHeader := by
  intro he
  simp only [expectedHeader, List.cons.injEq] at he
  exact h he.2.2.2.2.1

/-- Successful processing of one record, fully evaluated: the three
writes (front tmp, back tmp, merged document) in source order. -/
theorem stepRow_process (ctx : Ctx) (firstName lastName year idNum photo : Str)
    (rest : List Str) (st : RunState) (bytes : List Nat)
    (hhdr : firstName :: lastName :: year :: idNum :: photo :: rest ≠ expectedHeader)
    (hp : photo ≠ [])
    (hphoto : List.lookup (photoPath ctx year photo) ctx.photos = some bytes) :
    stepRow ctx (firstName :: lastName :: year :: idNum :: photo :: rest) st =
      .ok (processedState ctx firstName lastName year idNum bytes st) := by
  simp only [stepRow, if_neg hhdr, if_neg hp, processRecord, hphoto, setFile, List.lookup,
    beq_eq_false_iff_ne.mpr (tmpFrontPath_ne_tmpBackPath ctx idNum), beq_self_eq_true,
    frontMarkup, backMarkup, recordDoc, processedState]

theorem runRows_append (ctx : Ctx) :
    ∀ (pre post : List (List Str)) (st : RunState),
      runRows ctx (pre ++ post) st =
        match runRows ctx pre st with
        | .error e => .error e
        | .ok st' => runRows ctx post st' := by
  intro pre
  induction pre with
  | nil => intro post st; rfl
  | cons r rs ih =>
    intro post st
    simp only [List.cons_append, runRows]
    rcases h : stepRow ctx r st with e | st'
    · rfl
    · exact ih post st'

/-! ## The claims -/

/-- C1: If any processing step for one record fails (for example the
photo file at the resolved path does not exist, so `open` raises), the
entire run aborts at that record: `runRows` stops with the exception and
the state from before the failing record, so no subsequent record from
the record source is processed and no output is produced for any later
record. -/
theorem c1_failure_aborts_run (ctx : Ctx) (pre : List (List Str)) (row : List Str)
    (post : List (List Str)) (st0 st : RunState) (e : PyErr)
    (hpre : runRows ctx pre st0 = .ok st)
    (hfail : stepRow ctx row st = .error e) :
    runRows ctx (pre ++ row :: post) st0 = .error (e, st) := by
  rw [runRows_append ctx pre (row :: post) st0, hpre]
  simp only [runRows, hfail]

/-- Witness for C1: a missing photo for the first record aborts the run
before the second (processable) record is reached. -/
theorem c1_witness :
    runRows sampleCtx
        ([] ++
          ["Bad".toList, "Row".toList, "2099".toList, "S1".toList, "nope".toList] ::
            [["Ada".toList, "Lovelace".toList, "2099".toList, "S1001".toList, "p1".toList]])
        initSt =
      .error (.fileNotFound (photoPath sampleCtx "2099".toList "nope".toList), initSt) :=
  c1_failure_aborts_run sampleCtx []
    ["Bad".toList, "Row".toList, "2099".toList, "S1".toList, "nope".toList]
    [["Ada".toList, "Lovelace".toList, "2099".toList, "S1001".toList, "p1".toList]]
    initSt initSt (.fileNotFound (photoPath sampleCtx "2099".toList "nope".toList))
    rfl rfl

/-- C4: A record whose photo cell is the empty string is skipped: the
step succeeds, appends exactly one skip message (which is built from the
person's first and last name), writes no files and does no further work
for that record.  The second conjunct spells the message out. -/
theorem c4_empty_photo_skips (ctx : Ctx) (firstName lastName year idNum : Str)
    (rest : List Str) (st : RunState) :
    stepRow ctx (firstName :: lastName :: year :: idNum :: [] :: rest) st =
      .ok { st with skips := st.skips ++ [skipMsg firstName lastName] } ∧
    skipMsg firstName lastName =
      "Student ".toList ++ firstName ++
        (' ' :: (lastName ++ " does not have a photo. Skipping...".toList)) := by
  constructor
  · have hhdr : firstName :: lastName :: year :: idNum :: ([] : Str) :: rest ≠
        expectedHeader :=
      row_ne_header_of_photo firstName lastName year idNum [] rest (by decide)
    simp [stepRow, if_neg hhdr]
  · rfl

/-- C6: A row is excluded from processing as the header (the step leaves
the state entirely unchanged) if and only if it is exactly the list of
expected column labels; a row with the same labels in different casing
is handed to record processing as data. -/
theorem c6_header_exact_match :
    (∀ (ctx : Ctx) (st : RunState) (row : List Str),
      stepRow ctx row st = .ok st ↔ row = expectedHeader) ∧
    (∀ (ctx : Ctx) (st : RunState),
      stepRow ctx
          ["first".toList, "last".toList, "year".toList, "id number".toList,
            "photo number".toList] st =
        processRecord ctx "first".toList "last".toList "year".toList "id number".toList
          "photo number".toList st) := by
  constructor
  · intro ctx st row
    constructor
    · intro h
      by_contra hne
      rcases row with _ | ⟨a, _ | ⟨b, _ | ⟨c, _ | ⟨d, _ | ⟨e, rest⟩⟩⟩⟩⟩
      · simp [stepRow, hne] at h
      · simp [stepRow, hne] at h
      · simp [stepRow, hne] at h
      · simp [stepRow, hne] at h
      · simp [stepRow, hne] at h
      · by_cases hp : e = []
        · simp only [stepRow, if_neg hne, if_pos hp] at h
          injection h with h2
          have h3 := congrArg List.length (congrArg RunState.skips h2)
          simp at h3
        · simp only [stepRow, if_neg hne, if_neg hp, processRecord] at h
          rcases hl : List.lookup (photoPath ctx c e) ctx.photos with _ | bytes
          · rw [hl] at h
            exact Except.noConfusion h
          · rw [hl] at h
            simp only [setFile, List.lookup,
              beq_eq_false_iff_ne.mpr (tmpFrontPath_ne_tmpBackPath ctx d),
              beq_self_eq_true] at h
            injection h with h2
            have h3 := congrArg List.length (congrArg RunState.out h2)
            simp only [List.length_cons] at h3
            omega
    · intro h
      subst h
      simp [stepRow]
  · intro ctx st
    simp only [stepRow, if_neg (by decide :
      ¬(["first".toList, "last".toList, "year".toList, "id number".toList,
          "photo number".toList] = expectedHeader))]
    rw [if_neg (by decide : ¬("photo number".toList = ([] : Str)))]

/-- C9: Rows with too few columns are not validated: for every non-header
row with fewer than five cells, the loop body evaluates `row[4]` past the
end of the row and raises `IndexError` — the out-of-bounds branch is
reachable and there is no `MalformedRecordError` guard. -/
theorem c9_short_row_index_error (ctx : Ctx) (st : RunState) (row : List Str)
    (h : row.length < 5) :
    stepRow ctx row st = .error .indexError := by
  have hne : row ≠ expectedHeader := by
    intro he
    subst he
    exact absurd h (by decide)
  simp only [stepRow, if_neg hne]
  rcases row with _ | ⟨a, _ | ⟨b, _ | ⟨c, _ | ⟨d, _ | ⟨e, rest⟩⟩⟩⟩⟩
  · rfl
  · rfl
  · rfl
  · rfl
  · rfl
  · simp only [List.length_cons] at h
    omega

/-- Witness for C9: a three-cell row raises `IndexError`. -/
theorem c9_witness :
    stepRow sampleCtx ["Ada".toList, "Lovelace".toList, "2099".toList] initSt =
      .error .indexError :=
  c9_short_row_index_error sampleCtx initSt
    ["Ada".toList, "Lovelace".toList, "2099".toList] (by decide)

/-- C10: Only the exactly-empty string triggers the skip rule: a record
whose photo cell is non-empty whitespace is not skipped — the step
proceeds to record processing, which resolves and opens the photo at
`images_path/<year>/<photo>.jpg` with the whitespace name (and raises
`FileNotFoundError` for that path when no such file exists). -/
theorem c10_whitespace_photo_not_skipped (ctx : Ctx)
    (firstName lastName year idNum photo : Str) (rest : List Str) (st : RunState)
    (hne : photo ≠ []) (hws : ∀ c ∈ photo, c.isWhitespace = true) :
    stepRow ctx (firstName :: lastName :: year :: idNum :: photo :: rest) st =
      processRecord ctx firstName lastName year idNum photo st ∧
    (List.lookup (photoPath ctx year photo) ctx.photos = none →
      stepRow ctx (firstName :: lastName :: year :: idNum :: photo :: rest) st =
        .error (.fileNotFound (photoPath ctx year photo))) := by
  have hhdr : firstName :: lastName :: year :: idNum :: photo :: rest ≠ expectedHeader := by
    apply row_ne_header_of_photo
    intro he
    subst he
    exact absurd (hws 'P' (by decide)) (by decide)
  have hstep : stepRow ctx (firstName :: lastName :: year :: idNum :: photo :: rest) st =
      processRecord ctx firstName lastName year idNum photo st := by
    simp only [stepRow, if_neg hhdr, if_neg hne]
  refine ⟨hstep, fun hl => ?_⟩
  rw [hstep]
  simp only [processRecord, hl]

/-- Witness for C10: a single-space photo cell is processed, and the
pipeline attempts to open `images/2099/ .jpg`. -/
theorem c10_witness :
    stepRow sampleCtx
        ["Ada".toList, "Lovelace".toList, "2099".toList, "S1001".toList, [' ']] initSt =
      .error (.fileNotFound (photoPath sampleCtx "2099".toList [' '])) :=
  (c10_whitespace_photo_not_skipped sampleCtx "Ada".toList "Lovelace".toList
    "2099".toList "S1001".toList [' '] [] initSt (by decide) (by decide)).2 rfl

/-- C5: The merged output document is all pages of the front document
followed by all pages of the back document, in their original order, so
its page count is the sum of the two page counts; and for a record that
processes successfully, the file written at `outputRoot/<idNumber>.pdf`
is exactly that merge of its rasterized front and back, with front pages
preceding back pages. -/
theorem c5_merge_concatenates (frontDoc backDoc : List Page) (ctx : Ctx)
    (firstName lastName year idNum photo : Str) (rest : List Str) (st : RunState)
    (bytes : List Nat)
    (hhdr : firstName :: lastName :: year :: idNum :: photo :: rest ≠ expectedHeader)
    (hp : photo ≠ [])
    (hphoto : List.lookup (photoPath ctx year photo) ctx.photos = some bytes) :
    mergeDocs frontDoc backDoc = frontDoc ++ backDoc ∧
    (mergeDocs frontDoc backDoc).length = frontDoc.length + backDoc.length ∧
    ∃ st',
      stepRow ctx (firstName :: lastName :: year :: idNum :: photo :: rest) st = .ok st' ∧
      List.lookup (outPath ctx idNum) st'.out =
        some (mergeDocs (rasterize (frontMarkup ctx firstName lastName year idNum bytes))
          (rasterize (backMarkup ctx idNum))) := by
  refine ⟨rfl, by simp [mergeDocs], ?_⟩
  refine ⟨processedState ctx firstName lastName year idNum bytes st,
    stepRow_process ctx firstName lastName year idNum photo rest st bytes hhdr hp hphoto, ?_⟩
  simp [processedState, setFile, List.lookup, recordDoc]

/-- Witness for C5 at a concrete record and configuration. -/
theorem c5_witness :
    mergeDocs [⟨"A".toList, 1, 2⟩] [] = [⟨"A".toList, 1, 2⟩] ++ [] ∧
    (mergeDocs [⟨"A".toList, 1, 2⟩] []).length =
      [(⟨"A".toList, 1, 2⟩ : Page)].length + ([] : List Page).length ∧
    ∃ st',
      stepRow sampleCtx
          ["Ada".toList, "Lovelace".toList, "2099".toList, "S1001".toList, "p1".toList]
          initSt = .ok st' ∧
      List.lookup (outPath sampleCtx "S1001".toList) st'.out =
        some (mergeDocs
          (rasterize (frontMarkup sampleCtx "Ada".toList "Lovelace".toList "2099".toList
            "S1001".toList [1, 2, 3]))
          (rasterize (backMarkup sampleCtx "S1001".toList))) :=
  c5_merge_concatenates [⟨"A".toList, 1, 2⟩] [] sampleCtx "Ada".toList "Lovelace".toList
    "2099".toList "S1001".toList "p1".toList [] initSt [1, 2, 3] (by decide) (by decide) rfl

/-- C7: Barcode encoding is deterministic: `id_barcode` is a pure
function of the run configuration (which fixes the external Code128
renderer and the PNG rasterizer for the whole run) and the identifier
string alone — no run state enters it — so encoding equal identifiers
twice, anywhere in a run, yields byte-identical payloads, and the
back-side markups built from them coincide as well. -/
theorem c7_barcode_deterministic (ctx : Ctx) (id1 id2 : Str) (h : id1 = id2) :
    id_barcode ctx id1 = id_barcode ctx id2 ∧
    backMarkup ctx id1 = backMarkup ctx id2 := by
  subst h
  exact ⟨rfl, rfl⟩

/-- Witness for C7: encoding the sample identifier twice. -/
theorem c7_witness :
    id_barcode sampleCtx "S1001".toList = id_barcode sampleCtx "S1001".toList ∧
    backMarkup sampleCtx "S1001".toList = backMarkup sampleCtx "S1001".toList :=
  c7_barcode_deterministic sampleCtx "S1001".toList "S1001".toList rfl

/-- C8: When two processed records share the same `idNumber`, the later
record's merged document silently overwrites the earlier one's output at
`outputRoot/<idNumber>.pdf`: both records process without any collision
check, the first record's document is at that path in between, and after
both, the file at that path is the document produced from the later
record. -/
theorem c8_duplicate_id_overwrites (ctx : Ctx) (f1 l1 y1 p1 f2 l2 y2 p2 idNum : Str)
    (rest1 rest2 : List Str) (st : RunState) (b1 b2 : List Nat)
    (hhdr1 : f1 :: l1 :: y1 :: idNum :: p1 :: rest1 ≠ expectedHeader)
    (hp1 : p1 ≠ [])
    (hph1 : List.lookup (photoPath ctx y1 p1) ctx.photos = some b1)
    (hhdr2 : f2 :: l2 :: y2 :: idNum :: p2 :: rest2 ≠ expectedHeader)
    (hp2 : p2 ≠ [])
    (hph2 : List.lookup (photoPath ctx y2 p2) ctx.photos = some b2) :
    ∃ st1 st2,
      stepRow ctx (f1 :: l1 :: y1 :: idNum :: p1 :: rest1) st = .ok st1 ∧
      List.lookup (outPath ctx idNum) st1.out = some (recordDoc ctx f1 l1 y1 idNum b1) ∧
      stepRow ctx (f2 :: l2 :: y2 :: idNum :: p2 :: rest2) st1 = .ok st2 ∧
      runRows ctx
          [f1 :: l1 :: y1 :: idNum :: p1 :: rest1,
            f2 :: l2 :: y2 :: idNum :: p2 :: rest2] st = .ok st2 ∧
      List.lookup (outPath ctx idNum) st2.out = some (recordDoc ctx f2 l2 y2 idNum b2) := by
  have h1 := stepRow_process ctx f1 l1 y1 idNum p1 rest1 st b1 hhdr1 hp1 hph1
  have h2 := stepRow_process ctx f2 l2 y2 idNum p2 rest2
    (processedState ctx f1 l1 y1 idNum b1 st) b2 hhdr2 hp2 hph2
  refine ⟨processedState ctx f1 l1 y1 idNum b1 st,
    processedState ctx f2 l2 y2 idNum b2 (processedState ctx f1 l1 y1 idNum b1 st),
    h1, ?_, h2, ?_, ?_⟩
  · simp [processedState, setFile, List.lookup]
  · simp only [runRows, h1, h2]
  · simp [processedState, setFile, List.lookup]

/-- Witness for C8: two records with identifier `S1001`; afterwards the
output file holds the second record's document. -/
theorem c8_witness :
    ∃ st1 st2,
      stepRow sampleCtx
          ["Ada".toList, "Lovelace".toList, "2099".toList, "S1001".toList, "p1".toList]
          initSt = .ok st1 ∧
      List.lookup (outPath sampleCtx "S1001".toList) st1.out =
        some (recordDoc sampleCtx "Ada".toList "Lovelace".toList "2099".toList
          "S1001".toList [1, 2, 3]) ∧
      stepRow sampleCtx
          ["Grace".toList, "Hopper".toList, "2099".toList, "S1001".toList, "p1".toList]
          st1 = .ok st2 ∧
      runRows sampleCtx
          [["Ada".toList, "Lovelace".toList, "2099".toList, "S1001".toList, "p1".toList],
            ["Grace".toList, "Hopper".toList, "2099".toList, "S1001".toList, "p1".toList]]
          initSt = .ok st2 ∧
      List.lookup (outPath sampleCtx "S1001".toList) st2.out =
        some (recordDoc sampleCtx "Grace".toList "Hopper".toList "2099".toList
          "S1001".toList [1, 2, 3]) :=
  c8_duplicate_id_overwrites sampleCtx "Ada".toList "Lovelace".toList "2099".toList
    "p1".toList "Grace".toList "Hopper".toList "2099".toList "p1".toList "S1001".toList
    [] [] initSt [1, 2, 3] [1, 2, 3]
    (by decide) (by decide) rfl (by decide) (by decide) rfl

/-- C2: Rendering replaces every occurrence of each recognized token with
its value and touches nothing else.  The first two conjuncts pin the
values used by the code: `NAME` becomes `firstName ++ " " ++ lastName`,
`YEAR` the year group, `ID` the identifier, `PHOTO` the photo payload on
the front, and `BARCODE` the barcode payload on the back.  The third
conjunct characterizes each such substitution completely: the markup
decomposes into token-free segments joined by the token (so the
decomposition lists exactly the occurrences), the substitution output is
those same untouched segments joined by the value (every occurrence
replaced, text outside occurrences unchanged), and a token absent from
the markup causes no change and no error. -/
theorem c2_render_replaces_tokens :
    (∀ (template firstName lastName year idNum photo : Str),
      idFront template firstName lastName year idNum photo =
        pyReplace photoPat photo
          (pyReplace idPat idNum
            (pyReplace yearPat year
              (pyReplace namePat (firstName ++ ' ' :: lastName) template)))) ∧
    (∀ (template bc : Str), idBack template bc = pyReplace barcodePat bc template) ∧
    (∀ pat, pat ∈ [namePat, yearPat, idPat, photoPat, barcodePat] →
      ∀ (repl s : Str),
        pyReplace pat repl s = joinWith repl (pySplit pat s) ∧
        joinWith pat (pySplit pat s) = s ∧
        (∀ piece ∈ pySplit pat s, ¬ pat <:+: piece) ∧
        (¬ pat <:+: s → pyReplace pat repl s = s)) := by
  refine ⟨fun _ _ _ _ _ _ => rfl, fun _ _ => rfl, ?_⟩
  intro pat hmem repl s
  have hne : pat ≠ [] := by
    simp only [List.mem_cons, List.not_mem_nil, or_false] at hmem
    rcases hmem with rfl | rfl | rfl | rfl | rfl <;> decide
  exact ⟨pyReplace_eq_joinWith pat repl s, joinWith_pySplit pat s hne,
    pySplit_pieces_clean pat s hne, fun h => pyReplace_noop_of_absent pat repl s h⟩

/-- Witness for C2, with a concrete check that both occurrences of a
doubled token are replaced and surrounding text is untouched. -/
theorem c2_witness :
    namePat ∈ [namePat, yearPat, idPat, photoPat, barcodePat] ∧
    pyReplace namePat "Ada Lovelace".toList "<p><!-- NAME --></p>".toList =
      joinWith "Ada Lovelace".toList (pySplit namePat "<p><!-- NAME --></p>".toList) ∧
    idFront "<f><!-- NAME -->|<!-- NAME -->|<!-- ID --></f>".toList "Ada".toList
        "Lovelace".toList "2099".toList "S1001".toList "PH".toList =
      "<f>Ada Lovelace|Ada Lovelace|S1001</f>".toList :=
  ⟨by decide,
    (c2_render_replaces_tokens.2.2 namePat (by decide) "Ada Lovelace".toList
      "<p><!-- NAME --></p>".toList).1,
    by decide⟩

/-- C3 is refuted: substitution is not order-independent for every markup
and assignment of values.  With front markup `"<!-- NAME -->"` and a NAME
value of `"<!-- YEAR -->"` — a legitimate record value, as the first
conjunct shows: firstName `"<!--"`, lastName `"YEAR -->"` — substituting
NAME then YEAR yields `"2099"`, while YEAR then NAME yields
`"<!-- YEAR -->"`. -/
theorem c3_counterexample :
    "<!--".toList ++ ' ' :: "YEAR -->".toList = "<!-- YEAR -->".toList ∧
    substList [(namePat, "<!-- YEAR -->".toList), (yearPat, "2099".toList)] namePat ≠
      substList [(yearPat, "2099".toList), (namePat, "<!-- YEAR -->".toList)] namePat := by
  constructor
  · decide
  · decide

/-- C3 (amended): placeholder substitution inserts each value verbatim
with no escaping — at an occurrence the output is the raw value, whatever
characters it contains — and the code applies the substitutions in the
fixed source order NAME, YEAR, ID, PHOTO on the front (BARCODE alone on
the back).  The result is order-independent only in restricted cases;
in particular two substitutions commute whenever the second token occurs
neither in the markup nor in the markup produced by the first
substitution.  In general, when a substituted value contains (or its
insertion creates) another token's placeholder, a later substitution
rewrites it and different orders give different results. -/
theorem c3_amended_substitution_order (p q a b s u v : Str) (hp : p ≠ [])
    (hfirst : ¬ p <:+: (u ++ p).dropLast)
    (hqs : ¬ q <:+: s) (hqps : ¬ q <:+: pyReplace p a s) :
    pyReplace p a (u ++ p ++ v) = u ++ a ++ pyReplace p a v ∧
    (∀ (template firstName lastName year idNum photo : Str),
      idFront template firstName lastName year idNum photo =
        substList [(namePat, firstName ++ ' ' :: lastName), (yearPat, year),
          (idPat, idNum), (photoPat, photo)] template) ∧
    pyReplace p a (pyReplace q b s) = pyReplace q b (pyReplace p a s) := by
  refine ⟨pyReplace_first_occ p a hp u v hfirst, fun _ _ _ _ _ _ => rfl, ?_⟩
  rw [pyReplace_noop_of_absent q b s hqs,
    pyReplace_noop_of_absent q b (pyReplace p a s) hqps]

/-- Witness for the amended C3: the NAME value is the literal BARCODE
token and is still inserted verbatim; NAME and YEAR substitutions
commute on a markup free of YEAR tokens before and after. -/
theorem c3_amended_witness :
    pyReplace namePat barcodePat ("<x>".toList ++ namePat ++ "</x>".toList) =
      "<x>".toList ++ barcodePat ++ pyReplace namePat barcodePat "</x>".toList ∧
    idFront "<t><!-- ID --></t>".toList "Ada".toList "L".toList "2099".toList
        "S1".toList "P".toList =
      substList [(namePat, "Ada".toList ++ ' ' :: "L".toList), (yearPat, "2099".toList),
        (idPat, "S1".toList), (photoPat, "P".toList)] "<t><!-- ID --></t>".toList ∧
    pyReplace namePat barcodePat
        (pyReplace yearPat "2099".toList "<y><!-- NAME --></y>".toList) =
      pyReplace yearPat "2099".toList
        (pyReplace namePat barcodePat "<y><!-- NAME --></y>".toList) :=
  ⟨(c3_amended_substitution_order namePat yearPat barcodePat "2099".toList
      "<y><!-- NAME --></y>".toList "<x>".toList "</x>".toList
      (by decide) (by decide) (by decide) (by decide)).1,
    (c3_amended_substitution_order namePat yearPat barcodePat "2099".toList
      "<y><!-- NAME --></y>".toList "<x>".toList "</x>".toList
      (by decide) (by decide) (by decide) (by decide)).2.1
      "<t><!-- ID --></t>".toList "Ada".toList "L".toList "2099".toList
      "S1".toList "P".toList,
    (c3_amended_substitution_order namePat yearPat barcodePat "2099".toList
      "<y><!-- NAME --></y>".toList "<x>".toList "</x>".toList
      (by decide) (by decide) (by decide) (by decide)).2.2⟩

/-- Witness for C4: the concrete empty-photo record is skipped with a
message naming the student, and no file is written. -/
theorem c4_witness :
    stepRow sampleCtx
        ["Fake".toList, "Student".toList, "2099".toList, "S1002".toList, []] initSt =
      .ok { initSt with skips := initSt.skips ++ [skipMsg "Fake".toList "Student".toList] } ∧
    skipMsg "Fake".toList "Student".toList =
      "Student ".toList ++ "Fake".toList ++
        (' ' :: ("Student".toList ++ " does not have a photo. Skipping...".toList)) :=
  c4_empty_photo_skips sampleCtx "Fake".toList "Student".toList "2099".toList
    "S1002".toList [] initSt

/-- Witness for C6: the literal header row is a no-op, and the
lowercased variant is handed to record processing. -/
theorem c6_witness :
    (stepRow sampleCtx expectedHeader initSt = .ok initSt ↔
      expectedHeader = expectedHeader) ∧
    stepRow sampleCtx
        ["first".toList, "last".toList, "year".toList, "id number".toList,
          "photo number".toList] initSt =
      processRecord sampleCtx "first".toList "last".toList "year".toList
        "id number".toList "photo number".toList initSt :=
  ⟨c6_header_exact_match.1 sampleCtx initSt expectedHeader,
    c6_header_exact_match.2 sampleCtx initSt⟩
